import Mathlib

/-!
# Verification of the Janus multi-AI orchestrator core

A shallow embedding of the repository's core logic:

* the regex-based section extractors and the merge protocol of
  `janus/src/orchestrator.ts` (`extractSystemPrompt`, `extractPlan`,
  `extractRationale`, `mergeSystemPrompts`, `planWithJanus`), and
* the fallback-chain Claude planner of `janus/src/providers/claudePlanner.ts`
  (`planWithAnthropic`, `planWithHttpService`, `planWithCliCommand`,
  `planWithOpenAIFallback`, `claudePlan`).

Strings are modelled as `List Char`.  JavaScript string truthiness
(`s || t`, `if (s)`) is modelled by emptiness tests.  The three section
regexes are embedded by a direct backtracking matcher specialised to their
shape `(?:^|\n)(L1|…|Lk):\s*\n?(.+?)(\n\n|\n(T1|…|Tm):|$)` under the `i`
(case-insensitive) and `s` (dot matches newline) flags, with JavaScript's
leftmost-match, ordered-alternation, greedy/lazy backtracking semantics.

Asynchronous I/O (LLM API calls, HTTP requests, subprocesses) is modelled
by passing the outcome of each external call explicitly as data; exceptions
and promise rejections are modelled with `Except`.
-/

namespace Janus

/-- JavaScript whitespace (the characters matched by `\s` and trimmed by
`String.prototype.trim`, restricted to the code points that can occur in
this development: ASCII whitespace plus NBSP and the BOM). -/
def isWs (c : Char) : Bool :=
  c = ' ' || c = '\t' || c = '\n' || c = '\r' ||
  c = '\x0b' || c = '\x0c' || c = ' ' || c = '﻿'

/-- Drop leading JavaScript whitespace. -/
def trimLeft : List Char → List Char
  | [] => []
  | c :: t => if isWs c then trimLeft t else c :: t

/-- Drop trailing JavaScript whitespace. -/
def trimRight (l : List Char) : List Char :=
  (trimLeft l.reverse).reverse

/-- JavaScript `String.prototype.trim`. -/
def trimList (l : List Char) : List Char :=
  trimRight (trimLeft l)

/-- JavaScript `a || b` on strings: `b` when `a` is empty (falsy), else `a`. -/
def jsOr (a b : List Char) : List Char :=
  if a = [] then b else a

/-- JavaScript `o.f || d` where the field `f` may be absent (`undefined`):
falls through to `d` when absent or the empty string. -/
def optOr (o : Option (List Char)) (d : List Char) : List Char :=
  match o with
  | some s => if s = [] then d else s
  | none => d

/-- Truthiness of an optional environment variable: set and non-empty. -/
def isSet (o : Option (List Char)) : Bool :=
  match o with
  | some s => !s.isEmpty
  | none => false

/-- JavaScript `String.prototype.split('\n')`: never returns an empty list;
`"".split('\n')` is `[""]`. -/
def splitNl : List Char → List (List Char)
  | [] => [[]]
  | c :: t =>
    let r := splitNl t
    if c = '\n' then [] :: r else (c :: r.headI) :: r.tail

/-- JavaScript `Array.prototype.join(sep)` over strings. -/
def joinSep (sep : List Char) : List (List Char) → List Char
  | [] => []
  | [b] => b
  | b :: rest => b ++ sep ++ joinSep sep rest

/-- `pat.isPrefixOf s` as a boolean, by character equality. -/
def startsWithList : List Char → List Char → Bool
  | [], _ => true
  | _ :: _, [] => false
  | p :: pt, c :: ct => p = c && startsWithList pt ct

/-- JavaScript `s.includes(pat)`. -/
def containsSub (pat : List Char) : List Char → Bool
  | [] => pat.isEmpty
  | c :: t => startsWithList pat (c :: t) || containsSub pat t

/-! ## The embedded regex matcher

All three extraction regexes of `orchestrator.ts` share the shape

`/(?:^|\n)(L1|…|Lk):\s*\n?(.+?)(?:\n\n|\n(?:T1|…|Tm):|$)/is`

(for `extractRationale` the terminator group is just `$`).  The matcher
below implements exactly the JavaScript semantics of this pattern family:
positions are scanned left to right; label alternatives are tried in
order; `\s*` and `\n?` are greedy with backtracking; `(.+?)` is lazy and
consumes at least one character; terminator alternatives are tried in
order at each candidate end position. -/

/-- Case-insensitive prefix strip: `pat` is given in lower case. -/
def stripCI : List Char → List Char → Option (List Char)
  | [], s => some s
  | _ :: _, [] => none
  | p :: pt, c :: ct => if c.toLower = p then stripCI pt ct else none

/-- Try the label alternatives in order; each must be followed by `:`.
An alternative that matches but is not followed by `:` backtracks to the
next alternative, as the JavaScript engine does. -/
def tryLabels : List (List Char) → List Char → Option (List Char)
  | [], _ => none
  | a :: rest, s =>
    match stripCI a s with
    | some (':' :: r) => some r
    | _ => tryLabels rest s

/-- Does one of the terminator labels, followed by `:`, match here? -/
def termLabelHit (alts : List (List Char)) (s : List Char) : Bool :=
  alts.any fun a =>
    match stripCI a s with
    | some (':' :: _) => true
    | _ => false

/-- The terminator group at position `s`: `\n\n`, or `\n` + a terminator
label + `:`, or end of input — when `blank` is true; just end of input
otherwise (the `extractRationale` case, whose terminator is `$`). -/
def termB (tl : List (List Char)) (blank : Bool) (s : List Char) : Bool :=
  if blank then
    match s with
    | [] => true
    | '\n' :: r =>
      match r with
      | '\n' :: _ => true
      | _ => termLabelHit tl r
    | _ => false
  else s.isEmpty

/-- The lazy capture `(.+?)` followed by the terminator group: consume at
least one character, stopping at the earliest position where the
terminator matches. -/
def lazyCapture (tl : List (List Char)) (blank : Bool) : List Char → Option (List Char)
  | [] => none
  | c :: rest =>
    if termB tl blank rest then some [c]
    else (lazyCapture tl blank rest).map (fun cap => c :: cap)

/-- Greedy `\n?` followed by the lazy capture, with backtracking. -/
def nlOptCapture (tl : List (List Char)) (blank : Bool) (s : List Char) : Option (List Char) :=
  match s with
  | [] => lazyCapture tl blank []
  | c :: r =>
    if c = '\n' then
      match lazyCapture tl blank r with
      | some cap => some cap
      | none => lazyCapture tl blank (c :: r)
    else lazyCapture tl blank (c :: r)

/-- Greedy `\s*` followed by `\n?(.+?)(term)`, with backtracking: maximal
whitespace consumption is tried first, then progressively less. -/
def wsStarCapture (tl : List (List Char)) (blank : Bool) : List Char → Option (List Char)
  | [] => none
  | c :: r =>
    if isWs c then
      match wsStarCapture tl blank r with
      | some cap => some cap
      | none => nlOptCapture tl blank (c :: r)
    else nlOptCapture tl blank (c :: r)

/-- Attempt the whole pattern (past the `(?:^|\n)` anchor) at one position. -/
def matchAt (la tl : List (List Char)) (blank : Bool) (s : List Char) : Option (List Char) :=
  match tryLabels la s with
  | some r => wsStarCapture tl blank r
  | none => none

/-- Scan forward: the `\n` branch of `(?:^|\n)` can fire at every newline,
leftmost position first. -/
def scanFrom (la tl : List (List Char)) (blank : Bool) : List Char → Option (List Char)
  | [] => none
  | c :: t =>
    if c = '\n' then
      match matchAt la tl blank t with
      | some cap => some cap
      | none => scanFrom la tl blank t
    else scanFrom la tl blank t

/-- Leftmost match of the whole pattern: position 0 (the `^` branch) first,
then every position following a newline. -/
def findSection (la tl : List (List Char)) (blank : Bool) (s : List Char) : Option (List Char) :=
  match matchAt la tl blank s with
  | some cap => some cap
  | none => scanFrom la tl blank s

/-! ## The three extractors of `orchestrator.ts` -/

/-- Label alternatives of the system-prompt regex
`(?:SYSTEM PROMPT|System Prompt|SYSTEM|System)` — under the `i` flag the
four alternatives collapse to two, tried in order. -/
def sysLabels : List (List Char) := ["system prompt".data, "system".data]

/-- Terminator labels of the system-prompt regex `(?:PLAN|Plan|RATIONALE|Rationale)`. -/
def sysTerm : List (List Char) := ["plan".data, "rationale".data]

/-- Label alternatives of the plan regex
`(?:PLAN|Plan|IMPLEMENTATION PLAN|Implementation Plan)`. -/
def planLabels : List (List Char) := ["plan".data, "implementation plan".data]

/-- Terminator labels of the plan regex `(?:RATIONALE|Rationale|SYSTEM|System)`. -/
def planTerm : List (List Char) := ["rationale".data, "system".data]

/-- Label alternatives of the rationale regex
`(?:RATIONALE|Rationale|REASONING|Reasoning)`. -/
def ratLabels : List (List Char) := ["rationale".data, "reasoning".data]

/-- `extractSystemPrompt` from `orchestrator.ts`: regex match first, then
the line heuristic — non-blank lines; if the first exceeds 200 characters,
its first 200 characters trimmed plus `"..."`; otherwise the first up to
three non-blank lines joined by single spaces; all-blank input falls back
to the trimmed input. -/
def extractSystemPrompt (content : List Char) : List Char :=
  match findSection sysLabels sysTerm true content with
  | some cap => trimList cap
  | none =>
    let ls := (splitNl content).filter (fun l => !(trimList l).isEmpty)
    match ls with
    | [] => trimList content
    | first :: _ =>
      if 200 < first.length then trimList (first.take 200) ++ "...".data
      else trimList (joinSep [' '] (ls.take 3))

/-- `extractPlan` from `orchestrator.ts`: regex match or the empty string. -/
def extractPlan (content : List Char) : List Char :=
  match findSection planLabels planTerm true content with
  | some cap => trimList cap
  | none => []

/-- `extractRationale` from `orchestrator.ts`: regex match (running to the
end of the input) or the empty string. -/
def extractRationale (content : List Char) : List Char :=
  match findSection ratLabels [] false content with
  | some cap => trimList cap
  | none => []

/-! ## Data model (`janus/src/types.ts`) -/

/-- `PlanResult.provider : 'codex' | 'claude'`. -/
inductive Provider where
  | codex
  | claude
deriving DecidableEq

/-- `PlanResult` from `types.ts`. -/
structure PlanResult where
  provider : Provider
  systemPrompt : List Char
  plan : List Char
  rationale : List Char
deriving DecidableEq

/-- `JanusOutput` from `types.ts`. -/
structure JanusOutput where
  codex : Option PlanResult
  claude : Option PlanResult
  mergedPrompt : List Char
  mergedNotes : List Char
deriving DecidableEq

/-! ## Merge protocol (`orchestrator.ts`) -/

/-- The keyword filter inside `mergeSystemPrompts`: keep lines whose
trimmed, lowercased text contains one of `consider`, `ensure`, `avoid`,
`note`. -/
def keywordLine (line : List Char) : Bool :=
  let t := (trimList line).map Char.toLower
  containsSub "consider".data t || containsSub "ensure".data t ||
  containsSub "avoid".data t || containsSub "note".data t

/-- `mergeSystemPrompts` from `orchestrator.ts`, verbatim: re-extract the
cores, collect parts (task line, optional Approach line, optional filtered
Considerations line), and either fall back to
`task + "\n\n" + (codexCore || default)` when only the task line exists,
or join the parts with the empty separator. -/
def mergeSystemPrompts (task codexPrompt claudePrompt : List Char) : List Char :=
  let codexCore := extractSystemPrompt codexPrompt
  let claudeCore := extractSystemPrompt claudePrompt
  let parts0 : List (List Char) := ["Task: ".data ++ task]
  let parts1 :=
    if codexCore = [] then parts0
    else parts0 ++ ["\nApproach: ".data ++ codexCore]
  let parts2 :=
    if claudeCore ≠ [] ∧ claudeCore ≠ codexCore then
      let refinements := joinSep "; ".data ((splitNl claudeCore).filter keywordLine)
      if refinements = [] then parts1
      else parts1 ++ ["\nConsiderations: ".data ++ refinements]
    else parts1
  if parts2.length ≤ 1 then
    task ++ "\n\n".data ++ jsOr codexCore "Execute the task with precision and clarity.".data
  else joinSep [] parts2

/-- The raw 23-entry block sequence built for `mergedNotes` in
`planWithJanus`, before the `filter((line) => line !== '')`. -/
def janusNotesRaw (codex claude : PlanResult) : List (List Char) :=
  let codexSystemPrompt := extractSystemPrompt codex.systemPrompt
  let codexPlanText := jsOr (extractPlan codex.systemPrompt) codex.plan
  let codexRationale := jsOr (extractRationale codex.systemPrompt) codex.rationale
  let claudeSystemPrompt := extractSystemPrompt claude.systemPrompt
  let claudePlanText := jsOr (extractPlan claude.systemPrompt) claude.plan
  let claudeRationale := jsOr (extractRationale claude.systemPrompt) claude.rationale
  [ "# Codex Proposal".data,
    [],
    "## System Prompt".data,
    codexSystemPrompt,
    [],
    "## Plan".data,
    jsOr codexPlanText "(see rationale)".data,
    [],
    "## Rationale".data,
    jsOr codexRationale codex.rationale,
    [],
    "---".data,
    [],
    "# Claude Proposal".data,
    [],
    "## System Prompt".data,
    claudeSystemPrompt,
    [],
    "## Plan".data,
    jsOr claudePlanText "(see rationale)".data,
    [],
    "## Rationale".data,
    jsOr claudeRationale claude.rationale ]

/-- The block sequence after the `filter((line) => line !== '')`. -/
def notesBlocks (codex claude : PlanResult) : List (List Char) :=
  (janusNotesRaw codex claude).filter (fun b => !b.isEmpty)

/-- `planWithJanus` from `orchestrator.ts`.  The two awaited planner
results (`Promise.all([codexPlan(task), claudePlan(task)])`) are passed in
explicitly, making the function a pure map from the planners' outputs to
the orchestrator's output. -/
def planWithJanus (task : List Char) (codex claude : PlanResult) : JanusOutput :=
  let codexSystemPrompt := extractSystemPrompt codex.systemPrompt
  let claudeSystemPrompt := extractSystemPrompt claude.systemPrompt
  { codex := some codex
    claude := some claude
    mergedPrompt := mergeSystemPrompts task codexSystemPrompt claudeSystemPrompt
    mergedNotes := joinSep ['\n'] (notesBlocks codex claude) }

/-! ## Fallback-chain Claude planner (`claudePlanner.ts`)

The environment (`process.env`) and the outcome of every external call
are explicit inputs.  An environment variable is "configured" when set to
a non-empty string (JavaScript truthiness of `process.env.X`). -/

/-- Error values carried by thrown exceptions / rejected promises. -/
abbrev Err := List Char

/-- The configuration read from `process.env`. -/
structure Env where
  anthropicKey : Option (List Char)
  claudeFlowUrl : Option (List Char)
  claudeFlowCmd : Option (List Char)
  openaiKey : Option (List Char)

/-- One entry of `message.content` from the Anthropic SDK. -/
structure ContentBlock where
  btype : List Char
  text : Option (List Char)
deriving DecidableEq

/-- The JSON fields `planWithHttpService` looks for in a parsed response
body; `none` models an absent field. -/
structure JsonFields where
  systemPrompt : Option (List Char)
  content : Option (List Char)
  plan : Option (List Char)
  rationale : Option (List Char)
deriving DecidableEq

/-- Outcome of the HTTP transport's external interaction: the `new URL`
constructor throwing, the request erroring, or a response completing with
a body whose `JSON.parse` result (if any) is given as `parsed`. -/
inductive HttpOutcome where
  | badUrl
  | netError (e : Err)
  | completed (body : List Char) (parsed : Option JsonFields)

/-- Outcomes of all external calls a `claudePlan` invocation can make. -/
structure World where
  anthropicCall : Except Err (Option (List ContentBlock))
  httpOutcome : HttpOutcome
  cliOutcome : Except Err (List Char × List Char)
  openaiCall : Except Err (Option (List Char))

/-- The content computed from `message.content` in `planWithAnthropic`:
filter blocks of type `text` carrying a string, map to their text, join
with newlines; `undefined` content yields the empty string. -/
def anthContentOf (m : Option (List ContentBlock)) : List Char :=
  match m with
  | none => []
  | some blocks =>
    joinSep ['\n']
      ((blocks.filter fun b => decide (b.btype = "text".data) && b.text.isSome).map
        fun b => b.text.getD [])

/-- `planWithAnthropic`: null when the key is unset; any exception from
the dynamic import or the API call is caught and yields null. -/
def planWithAnthropic (env : Env) (w : World) : Option PlanResult :=
  if isSet env.anthropicKey then
    match w.anthropicCall with
    | .error _ => none
    | .ok m =>
      some { provider := .claude
             systemPrompt := anthContentOf m
             plan := anthContentOf m
             rationale := "Claude-style critique via Anthropic API.".data }
  else none

/-- The `PlanResult` resolved by `planWithHttpService` for a completed
response: JSON fields with `||` fallbacks when the body parsed, else the
raw body as both systemPrompt and plan. -/
def mkHttpPlanResult (body : List Char) (parsed : Option JsonFields) : PlanResult :=
  match parsed with
  | some j =>
    { provider := .claude
      systemPrompt := optOr j.systemPrompt (optOr j.content body)
      plan := optOr j.plan (optOr j.content body)
      rationale := optOr j.rationale "Claude-style critique via external HTTP service.".data }
  | none =>
    { provider := .claude
      systemPrompt := body
      plan := body
      rationale := "Claude-style critique via external HTTP service.".data }

/-- `planWithHttpService`: resolves null when the URL is unset or the
`new URL` constructor throws (caught by the synchronous try/catch); the
returned promise rejects on a request error (NOT caught inside — the
caller's try/catch handles it); a completed response always resolves to a
result. -/
def planWithHttpService (env : Env) (w : World) : Except Err (Option PlanResult) :=
  if isSet env.claudeFlowUrl then
    match w.httpOutcome with
    | .badUrl => .ok none
    | .netError e => .error e
    | .completed body parsed => .ok (some (mkHttpPlanResult body parsed))
  else .ok none

/-- The content captured from a CLI invocation:
`stdout.trim() || stderr.trim()`. -/
def cliContent (out : List Char × List Char) : List Char :=
  jsOr (trimList out.1) (trimList out.2)

/-- `planWithCliCommand`: null when the command is unset; exec errors are
caught and yield null; an empty content yields null. -/
def planWithCliCommand (env : Env) (w : World) : Option PlanResult :=
  if isSet env.claudeFlowCmd then
    match w.cliOutcome with
    | .error _ => none
    | .ok out =>
      if cliContent out = [] then none
      else
        some { provider := .claude
               systemPrompt := cliContent out
               plan := cliContent out
               rationale := "Claude-style critique via external CLI command.".data }
  else none

/-- The stub `PlanResult` returned when no key at all is configured. -/
def stubPlanResult : PlanResult :=
  { provider := .claude
    systemPrompt := ("Claude-Flow stub: no API keys configured. Set ANTHROPIC_API_KEY, " ++
      "CLAUDE_FLOW_URL, CLAUDE_FLOW_CMD, or OPENAI_API_KEY.").data
    plan := "Treat this as a placeholder until real Claude integration is wired.".data
    rationale := "Stub response generated locally.".data }

/-- `planWithOpenAIFallback`: the stub when `OPENAI_API_KEY` is unset;
otherwise the OpenAI call's content (`?? ''` on a missing message) — an
exception from this call is NOT caught anywhere and propagates. -/
def planWithOpenAIFallback (env : Env) (w : World) : Except Err PlanResult :=
  if isSet env.openaiKey then
    match w.openaiCall with
    | .error e => .error e
    | .ok o =>
      .ok { provider := .claude
            systemPrompt := o.getD []
            plan := o.getD []
            rationale := "Claude-style critique synthesized via OpenAI (fallback mode).".data }
  else .ok stubPlanResult

/-- The tail of `claudePlan` starting at the OpenAI fallback stage. -/
def claudeStage4 (env : Env) (w : World) : Except Err PlanResult :=
  planWithOpenAIFallback env w

/-- The tail of `claudePlan` starting at the CLI stage (the try/catch
around it is dead code: `planWithCliCommand` catches internally). -/
def claudeStage3 (env : Env) (w : World) : Except Err PlanResult :=
  match planWithCliCommand env w with
  | some r => .ok r
  | none => claudeStage4 env w

/-- The HTTP transport's resolution as seen through the `try { … } catch`
in `claudePlan`: a rejection is swallowed and treated as null. -/
def httpCaught (env : Env) (w : World) : Option PlanResult :=
  match planWithHttpService env w with
  | .error _ => none
  | .ok o => o

/-- The tail of `claudePlan` starting at the HTTP stage. -/
def claudeStage2 (env : Env) (w : World) : Except Err PlanResult :=
  match httpCaught env w with
  | some r => .ok r
  | none => claudeStage3 env w

/-- `claudePlan` from `claudePlanner.ts`: Anthropic API → HTTP service →
CLI command → OpenAI fallback, returning the first non-null result. -/
def claudePlan (env : Env) (w : World) : Except Err PlanResult :=
  match planWithAnthropic env w with
  | some r => .ok r
  | none => claudeStage2 env w

/-! ## Auxiliary predicates used in claim statements -/

/-- Boolean membership in a list of strings. -/
def memB (x : List Char) (l : List (List Char)) : Bool :=
  l.any fun y => decide (x = y)

/-- The three section headings of `mergedNotes`. -/
def subHeadings : List (List Char) :=
  ["## System Prompt".data, "## Plan".data, "## Rationale".data]

/-- All fixed literal lines of `mergedNotes` (headings and separator). -/
def fixedNoteLines : List (List Char) :=
  ["# Codex Proposal".data, "# Claude Proposal".data, "---".data] ++ subHeadings

/-- A section heading is "orphaned" in a line sequence when it is
immediately followed by another fixed literal line, or by nothing. -/
def hasOrphanHeading : List (List Char) → Bool
  | [] => false
  | [x] => memB x subHeadings
  | x :: y :: t => (memB x subHeadings && memB y fixedNoteLines) || hasOrphanHeading (y :: t)

/-- Every successful Anthropic API call in `w` carried non-empty content. -/
def anthOkNonempty (w : World) : Bool :=
  match w.anthropicCall with
  | .ok m => !(anthContentOf m).isEmpty
  | .error _ => true

/-- Every completed HTTP response in `w` had a non-empty body. -/
def httpBodyNonempty (w : World) : Bool :=
  match w.httpOutcome with
  | .completed body _ => !body.isEmpty
  | _ => true

/-- Every successful OpenAI call in `w` carried non-empty content. -/
def openaiOkNonempty (w : World) : Bool :=
  match w.openaiCall with
  | .ok o => !(o.getD []).isEmpty
  | .error _ => true

/-! ## Concrete instances used by counterexamples and witnesses -/

/-- Environment with Anthropic key and HTTP URL configured. -/
def envAnthHttp : Env := ⟨some "k".data, some "u".data, none, none⟩

/-- World where the Anthropic call succeeds with an empty content-block
list (hence empty content) and the HTTP service answers non-emptily. -/
def wAnthEmpty : World :=
  ⟨.ok (some []), .completed "hello".data none, .error "e".data, .ok none⟩

/-- Environment with only the Anthropic key configured. -/
def envAnthOnly : Env := ⟨some "k".data, none, none, none⟩

/-- World where the Anthropic call succeeds with one text block. -/
def wAnthHi : World :=
  ⟨.ok (some [⟨"text".data, some "hi".data⟩]), .badUrl, .error "e".data, .ok none⟩

/-- Environment with only the HTTP URL configured. -/
def envHttpOnly : Env := ⟨none, some "u".data, none, none⟩

/-- World where the HTTP service completes with an empty non-JSON body. -/
def wHttpEmptyBody : World :=
  ⟨.error "no".data, .completed [] none, .error "e".data, .ok none⟩

/-- World where the HTTP service completes with a parsed JSON body that
has none of the recognized fields. -/
def wHttpBareJson : World :=
  ⟨.error "no".data, .completed "raw".data (some ⟨none, none, none, none⟩),
   .error "e".data, .ok none⟩

/-- Environment with nothing configured. -/
def envNone : Env := ⟨none, none, none, none⟩

/-- World with benign outcomes for every transport. -/
def wBenign : World :=
  ⟨.ok (some [⟨"text".data, some "hi".data⟩]), .completed "x".data none,
   .ok ("out".data, "err".data), .ok (some "y".data)⟩

/-- Environment with every transport configured. -/
def envAll : Env := ⟨some "k".data, some "u".data, some "c".data, some "o".data⟩

/-- World where every transport fails. -/
def wAllFail : World :=
  ⟨.error "e1".data, .netError "e2".data, .error "e3".data, .error "e4".data⟩

/-- The primary planner result of the specification's example scenario. -/
def codexScenario : PlanResult :=
  ⟨.codex, "SYSTEM PROMPT:\nBuild it carefully\n\nPLAN:\nStep 1".data,
   "Step 1".data, "r1".data⟩

/-- The secondary planner result of the specification's example scenario. -/
def claudeScenario : PlanResult :=
  ⟨.claude, "Consider edge cases.\nNote potential race.".data, "p2".data, "r2".data⟩

/-- A planner result with all fields empty. -/
def prEmptyCodex : PlanResult := ⟨.codex, [], [], []⟩

/-- A planner result with all fields empty, claude-side. -/
def prEmptyClaude : PlanResult := ⟨.claude, [], [], []⟩

/-- A planner result whose raw plan contains a blank line. -/
def prBlankPlan : PlanResult := ⟨.codex, "x".data, "a\n\nb".data, "r".data⟩

/-- A planner result with clean single-line fields. -/
def prCleanCodex : PlanResult := ⟨.codex, "Alpha".data, "P1".data, "R1".data⟩

/-- A planner result with clean single-line fields, claude-side. -/
def prCleanClaude : PlanResult := ⟨.claude, "Beta".data, "P2".data, "R2".data⟩

/-- A 220-character first line whose 200th character is a space. -/
def longLineSpaceAt200 : List Char :=
  List.replicate 199 'a' ++ ' ' :: List.replicate 20 'b'

/-- A 250-character line of letters. -/
def longLinePlain : List Char := List.replicate 250 'a'

end Janus

namespace Janus

/-! ## General lemmas -/

theorem splitNl_ne_nil (l : List Char) : splitNl l ≠ [] := by
  cases l with
  | nil => simp [splitNl]
  | cons c t =>
    simp only [splitNl]
    split <;> simp

theorem splitNl_append (a b : List Char) :
    splitNl (a ++ '\n' :: b) = splitNl a ++ splitNl b := by
  induction a with
  | nil => simp [splitNl]
  | cons c t ih =>
    cases hs : splitNl t with
    | nil => exact absurd hs (splitNl_ne_nil t)
    | cons h0 r0 =>
      by_cases hc : c = '\n'
      · subst hc
        simp [splitNl, ih]
      · simp [splitNl, hc, ih, hs]

theorem joinSep_cons_cons (sep b x : List Char) (xs : List (List Char)) :
    joinSep sep (b :: x :: xs) = b ++ sep ++ joinSep sep (x :: xs) := rfl

theorem splitNl_joinNl (bs : List (List Char)) (h : bs ≠ []) :
    splitNl (joinSep ['\n'] bs) = bs.flatMap splitNl := by
  induction bs with
  | nil => exact absurd rfl h
  | cons b rest ih =>
    cases rest with
    | nil => simp [joinSep]
    | cons x xs =>
      rw [joinSep_cons_cons, List.append_assoc, List.singleton_append, splitNl_append,
        ih (by simp)]
      simp

theorem trimLeft_of_head (c : Char) (t : List Char) (h : isWs c = false) :
    trimLeft (c :: t) = c :: t := by
  simp [trimLeft, h]

theorem trimList_eq_self (l : List Char) (hne : l ≠ [])
    (hh : isWs l.headI = false) (hl : isWs (l.getLastD ' ') = false) :
    trimList l = l := by
  cases l with
  | nil => exact absurd rfl hne
  | cons c t =>
    have h1 : trimLeft (c :: t) = c :: t := trimLeft_of_head c t (by simpa using hh)
    rcases (c :: t).eq_nil_or_concat' with h | ⟨L, b, hL⟩
    · simp at h
    · have hb : isWs b = false := by
        rw [hL] at hl
        simpa using hl
      rw [trimList, h1, trimRight, hL, List.reverse_append, List.reverse_cons,
        List.reverse_nil, List.nil_append, List.singleton_append,
        trimLeft_of_head _ _ hb]
      simp



theorem lazyCapture_append (tl : List (List Char)) (body tail : List Char)
    (hne : body ≠ [])
    (hterm : termB tl true tail = true)
    (hno : ∀ k, k < body.length → 0 < k → termB tl true (body.drop k ++ tail) = false) :
    lazyCapture tl true (body ++ tail) = some body := by
  induction body with
  | nil => exact absurd rfl hne
  | cons c cs ih =>
    cases cs with
    | nil =>
      simp [lazyCapture, hterm]
    | cons c2 cs2 =>
      have h1 : termB tl true ((c2 :: cs2) ++ tail) = false := by
        simpa using hno 1 (by simp) (by omega)
      have h2 : lazyCapture tl true ((c2 :: cs2) ++ tail) = some (c2 :: cs2) := by
        refine ih (by simp) ?_
        intro k hk hk2
        simpa [List.drop_succ_cons] using hno (k + 1) (by simp at hk ⊢; omega) (by omega)
      rw [List.cons_append, lazyCapture, h1]
      rw [h2]
      rfl



theorem extractSystemPrompt_label (body rest : List Char) (hne : body ≠ [])
    (hh : isWs body.headI = false) (hl : isWs (body.getLastD ' ') = false)
    (hno : ∀ k, k < body.length → 0 < k →
      termB sysTerm true (body.drop k ++ '\n' :: '\n' :: rest) = false) :
    extractSystemPrompt ("SYSTEM PROMPT:".data ++ '\n' :: (body ++ '\n' :: '\n' :: rest))
      = body := by
  cases body with
  | nil => exact absurd rfl hne
  | cons c cs =>
    have hc : isWs c = false := by simpa using hh
    have hcn : c ≠ '\n' := by
      intro h
      rw [h] at hc
      simp [isWs] at hc
    have hterm : termB sysTerm true ('\n' :: '\n' :: rest) = true := rfl
    have hcap : lazyCapture sysTerm true ((c :: cs) ++ '\n' :: '\n' :: rest) = some (c :: cs) :=
      lazyCapture_append _ _ _ (by simp) hterm hno
    have hnl : nlOptCapture sysTerm true ((c :: cs) ++ '\n' :: '\n' :: rest) = some (c :: cs) := by
      rw [List.cons_append, nlOptCapture, if_neg hcn, ← List.cons_append, hcap]
    have hws : wsStarCapture sysTerm true ((c :: cs) ++ '\n' :: '\n' :: rest) = some (c :: cs) := by
      rw [List.cons_append, wsStarCapture, if_neg (by simp [hc]), ← List.cons_append, hnl]
    have hws2 : wsStarCapture sysTerm true ('\n' :: ((c :: cs) ++ '\n' :: '\n' :: rest))
        = some (c :: cs) := by
      rw [wsStarCapture, if_pos (by simp [isWs]), hws]
    have hlab : tryLabels sysLabels
        ("SYSTEM PROMPT:".data ++ '\n' :: ((c :: cs) ++ '\n' :: '\n' :: rest))
        = some ('\n' :: ((c :: cs) ++ '\n' :: '\n' :: rest)) := rfl
    have hfind : findSection sysLabels sysTerm true
        ("SYSTEM PROMPT:".data ++ '\n' :: ((c :: cs) ++ '\n' :: '\n' :: rest))
        = some (c :: cs) := by
      rw [findSection, matchAt, hlab]
      rw [show (match some ('\n' :: (c :: cs ++ '\n' :: '\n' :: rest)) with
            | some r => wsStarCapture sysTerm true r
            | none => none) = wsStarCapture sysTerm true ('\n' :: (c :: cs ++ '\n' :: '\n' :: rest))
          from rfl, hws2]
    rw [extractSystemPrompt, hfind]
    exact trimList_eq_self _ (by simp) hh hl



theorem extractSystemPrompt_truncation (content first : List Char) (restL : List (List Char))
    (hfind : findSection sysLabels sysTerm true content = none)
    (hlines : (splitNl content).filter (fun l => !(trimList l).isEmpty) = first :: restL)
    (hlen : 200 < first.length) :
    extractSystemPrompt content = trimList (first.take 200) ++ "...".data := by
  rw [extractSystemPrompt, hfind]
  simp only [hlines]
  rw [if_pos hlen]

theorem mergedPrompt_default (task : List Char) (codex claude : PlanResult)
    (h1 : extractSystemPrompt codex.systemPrompt = [])
    (h2 : extractSystemPrompt claude.systemPrompt = []) :
    (planWithJanus task codex claude).mergedPrompt
      = task ++ "\n\n".data ++ "Execute the task with precision and clarity.".data := by
  show mergeSystemPrompts task (extractSystemPrompt codex.systemPrompt)
      (extractSystemPrompt claude.systemPrompt) = _
  rw [h1, h2]
  have he : extractSystemPrompt ([] : List Char) = [] := rfl
  simp [mergeSystemPrompts, he, jsOr]

theorem notesBlocks_no_empty (codex claude : PlanResult) :
    [] ∉ notesBlocks codex claude := by
  intro h
  have := (List.mem_filter.mp h).2
  simp at this



theorem heading_mem_notesBlocks (codex claude : PlanResult) :
    "# Codex Proposal".data ∈ notesBlocks codex claude ∧
    "# Claude Proposal".data ∈ notesBlocks codex claude ∧
    "---".data ∈ notesBlocks codex claude := by
  refine ⟨?_, ?_, ?_⟩ <;>
    exact List.mem_filter.mpr ⟨by simp [janusNotesRaw], by decide⟩

theorem mergedNotes_lines (task : List Char) (codex claude : PlanResult)
    (h : ∀ b ∈ notesBlocks codex claude, [] ∉ splitNl b) :
    "# Codex Proposal".data ∈ splitNl ((planWithJanus task codex claude).mergedNotes) ∧
    "# Claude Proposal".data ∈ splitNl ((planWithJanus task codex claude).mergedNotes) ∧
    "---".data ∈ splitNl ((planWithJanus task codex claude).mergedNotes) ∧
    [] ∉ splitNl ((planWithJanus task codex claude).mergedNotes) := by
  obtain ⟨hm1, hm2, hm3⟩ := heading_mem_notesBlocks codex claude
  have hnotes : (planWithJanus task codex claude).mergedNotes
      = joinSep ['\n'] (notesBlocks codex claude) := rfl
  have hne : notesBlocks codex claude ≠ [] := List.ne_nil_of_mem hm1
  rw [hnotes, splitNl_joinNl _ hne]
  refine ⟨?_, ?_, ?_, ?_⟩
  · exact List.mem_flatMap.mpr ⟨_, hm1, by decide⟩
  · exact List.mem_flatMap.mpr ⟨_, hm2, by decide⟩
  · exact List.mem_flatMap.mpr ⟨_, hm3, by decide⟩
  · intro hmem
    obtain ⟨b, hb, hbm⟩ := List.mem_flatMap.mp hmem
    exact h b hb hbm



theorem claudePlan_transport_order (env : Env) (w : World) :
    (∀ r, planWithAnthropic env w = some r → claudePlan env w = .ok r) ∧
    (planWithAnthropic env w = none →
      ∀ r, httpCaught env w = some r → claudePlan env w = .ok r) ∧
    (planWithAnthropic env w = none → httpCaught env w = none →
      ∀ r, planWithCliCommand env w = some r → claudePlan env w = .ok r) ∧
    (planWithAnthropic env w = none → httpCaught env w = none →
      planWithCliCommand env w = none →
      claudePlan env w = planWithOpenAIFallback env w) := by
  refine ⟨?_, ?_, ?_, ?_⟩ <;>
    intros <;>
    simp_all [claudePlan, claudeStage2, claudeStage3, claudeStage4]

theorem planWithAnthropic_of_error (env : Env) (w : World) (e : Err)
    (he : w.anthropicCall = .error e) : planWithAnthropic env w = none := by
  unfold planWithAnthropic
  rw [he]
  split <;> rfl

theorem planWithCliCommand_of_error (env : Env) (w : World) (e : Err)
    (he : w.cliOutcome = .error e) : planWithCliCommand env w = none := by
  unfold planWithCliCommand
  rw [he]
  split <;> rfl

theorem openaiFallback_error_source (env : Env) (w : World) (e : Err) :
    planWithOpenAIFallback env w = .error e → w.openaiCall = .error e := by
  unfold planWithOpenAIFallback
  split
  · split
    · rename_i heq
      intro h
      cases h
      exact heq
    · intro h
      cases h
  · intro h
    cases h

theorem claudePlan_error_from_fallback (env : Env) (w : World) (e : Err) :
    claudePlan env w = .error e → planWithOpenAIFallback env w = .error e := by
  unfold claudePlan claudeStage2 claudeStage3 claudeStage4
  split
  · intro h
    cases h
  · split
    · intro h
      cases h
    · split
      · intro h
        cases h
      · exact id

theorem claudePlan_failure_fallthrough (env : Env) (w : World) :
    (∀ e, w.anthropicCall = .error e → claudePlan env w = claudeStage2 env w) ∧
    (∀ e, planWithHttpService env w = .error e → claudeStage2 env w = claudeStage3 env w) ∧
    (∀ e, w.cliOutcome = .error e → claudeStage3 env w = claudeStage4 env w) ∧
    (∀ e, claudePlan env w = .error e →
      planWithOpenAIFallback env w = .error e ∧ w.openaiCall = .error e) := by
  refine ⟨?_, ?_, ?_, ?_⟩
  · intro e he
    unfold claudePlan
    rw [planWithAnthropic_of_error env w e he]
  · intro e he
    unfold claudeStage2 httpCaught
    rw [he]
  · intro e he
    unfold claudeStage3
    rw [planWithCliCommand_of_error env w e he]
  · intro e he
    have h4 := claudePlan_error_from_fallback env w e he
    exact ⟨h4, openaiFallback_error_source env w e h4⟩

theorem optOr_ne (o : Option (List Char)) (d : List Char) (hd : d ≠ []) :
    optOr o d ≠ [] := by
  unfold optOr
  rcases o with _ | s
  · exact hd
  · by_cases h : s = [] <;> simp [h, hd]

theorem optOr_chain_ne (x y : Option (List Char)) (b : List Char) (hb : b ≠ []) :
    optOr x (optOr y b) ≠ [] :=
  optOr_ne x _ (optOr_ne y b hb)

theorem anthropic_systemPrompt_ne (env : Env) (w : World)
    (h1 : anthOkNonempty w = true) :
    ∀ r, planWithAnthropic env w = some r → r.systemPrompt ≠ [] := by
  intro r hr
  unfold planWithAnthropic at hr
  split at hr
  · split at hr
    · cases hr
    · rename_i m heq
      cases hr
      unfold anthOkNonempty at h1
      rw [heq] at h1
      simpa using h1
  · cases hr

theorem planWithHttpService_systemPrompt_ne (env : Env) (w : World)
    (h2 : httpBodyNonempty w = true) :
    ∀ r, planWithHttpService env w = .ok (some r) → r.systemPrompt ≠ [] := by
  intro r hr
  unfold planWithHttpService at hr
  split at hr
  · split at hr
    · cases hr
    · cases hr
    · rename_i body parsed heq
      injection hr with hr2
      injection hr2 with hr3
      unfold httpBodyNonempty at h2
      rw [heq] at h2
      have hb : body ≠ [] := by simpa using h2
      subst hr3
      unfold mkHttpPlanResult
      split
      · exact optOr_chain_ne _ _ _ hb
      · exact hb
  · cases hr

theorem httpCaught_systemPrompt_ne (env : Env) (w : World)
    (h2 : httpBodyNonempty w = true) :
    ∀ r, httpCaught env w = some r → r.systemPrompt ≠ [] := by
  intro r hr
  unfold httpCaught at hr
  split at hr
  · cases hr
  · rename_i o heq
    subst hr
    exact planWithHttpService_systemPrompt_ne env w h2 r heq

theorem cli_systemPrompt_ne (env : Env) (w : World) :
    ∀ r, planWithCliCommand env w = some r → r.systemPrompt ≠ [] := by
  intro r hr
  unfold planWithCliCommand at hr
  split at hr
  · split at hr
    · cases hr
    · split at hr
      · cases hr
      · rename_i hne
        cases hr
        exact hne
  · cases hr

theorem fallback_systemPrompt_ne (env : Env) (w : World)
    (h3 : openaiOkNonempty w = true) :
    ∀ r, planWithOpenAIFallback env w = .ok r → r.systemPrompt ≠ [] := by
  intro r hr
  unfold planWithOpenAIFallback at hr
  split at hr
  · split at hr
    · cases hr
    · rename_i o heq
      cases hr
      unfold openaiOkNonempty at h3
      rw [heq] at h3
      simpa using h3
  · cases hr
    decide

theorem claudePlan_systemPrompt_nonempty (env : Env) (w : World)
    (h1 : anthOkNonempty w = true) (h2 : httpBodyNonempty w = true)
    (h3 : openaiOkNonempty w = true) :
    ∀ r, claudePlan env w = .ok r → r.systemPrompt ≠ [] := by
  intro r hr
  unfold claudePlan at hr
  split at hr
  · rename_i r0 heq
    cases hr
    exact anthropic_systemPrompt_ne env w h1 _ heq
  · unfold claudeStage2 at hr
    split at hr
    · rename_i r0 heq
      cases hr
      exact httpCaught_systemPrompt_ne env w h2 _ heq
    · unfold claudeStage3 at hr
      split at hr
      · rename_i r0 heq
        cases hr
        exact cli_systemPrompt_ne env w _ heq
      · exact fallback_systemPrompt_ne env w h3 _ hr

theorem planWithHttpService_completed (env : Env) (w : World) (body : List Char)
    (parsed : Option JsonFields) (hurl : isSet env.claudeFlowUrl = true)
    (hresp : w.httpOutcome = .completed body parsed) :
    planWithHttpService env w = .ok (some (mkHttpPlanResult body parsed)) ∧
    (∀ j, parsed = some j → j.systemPrompt = none → j.content = none →
      (mkHttpPlanResult body parsed).systemPrompt = body ∧
      (j.plan = none → (mkHttpPlanResult body parsed).plan = body)) ∧
    (parsed = none → (mkHttpPlanResult body parsed).systemPrompt = body ∧
      (mkHttpPlanResult body parsed).plan = body) := by
  refine ⟨by simp [planWithHttpService, hurl, hresp], ?_, ?_⟩
  · rintro j rfl hsp hc
    refine ⟨by simp [mkHttpPlanResult, optOr, hsp, hc], ?_⟩
    intro hp
    simp [mkHttpPlanResult, optOr, hp, hc]
  · rintro rfl
    simp [mkHttpPlanResult]

/-! ## The claims -/

/-- Claim C1 (corrected): `claudePlan` tries its transports in the fixed
order direct Anthropic API, HTTP service, CLI command, OpenAI fallback,
and returns the result of the first stage that yields a non-null result —
in particular the direct-API result is preferred over the HTTP result.
(The original claim's "non-empty content" condition fails: the direct-API
and HTTP stages yield a result even when their content is empty; only the
CLI stage rejects empty content.) -/
theorem c1_transport_order (env : Env) (w : World) :
    (∀ r, planWithAnthropic env w = some r → claudePlan env w = .ok r) ∧
    (planWithAnthropic env w = none →
      ∀ r, httpCaught env w = some r → claudePlan env w = .ok r) ∧
    (planWithAnthropic env w = none → httpCaught env w = none →
      ∀ r, planWithCliCommand env w = some r → claudePlan env w = .ok r) ∧
    (planWithAnthropic env w = none → httpCaught env w = none →
      planWithCliCommand env w = none →
      claudePlan env w = planWithOpenAIFallback env w) := by
  refine ⟨?_, ?_, ?_, ?_⟩ <;>
    intros <;>
    simp_all [claudePlan, claudeStage2, claudeStage3, claudeStage4]

/-- Witness for C1: with only the Anthropic key configured and a
successful call, `claudePlan` returns the Anthropic transport's result. -/
theorem c1_transport_order_witness :
    claudePlan envAnthOnly wAnthHi
      = .ok ⟨.claude, "hi".data, "hi".data,
          "Claude-style critique via Anthropic API.".data⟩ :=
  (c1_transport_order envAnthOnly wAnthHi).1 _ rfl

/-- Counterexample for C1 as stated: with both the Anthropic and HTTP
transports configured, the Anthropic call succeeding with EMPTY content
and the HTTP service answering non-emptily, `claudePlan` returns the
empty-content Anthropic result — a transport that succeeds with empty
content IS the one whose result is returned. -/
theorem c1_empty_transport_counterexample :
    claudePlan envAnthHttp wAnthEmpty
      = .ok ⟨.claude, [], [], "Claude-style critique via Anthropic API.".data⟩ ∧
    planWithHttpService envAnthHttp wAnthEmpty
      = .ok (some ⟨.claude, "hello".data, "hello".data,
          "Claude-style critique via external HTTP service.".data⟩) ∧
    ("hello".data : List Char) ≠ [] :=
  ⟨rfl, rfl, by decide⟩

/-- Claim C2 (corrected): in the specification's example scenario the
merged prompt's Considerations text is the case-preserving, space-joined
extraction "Consider edge cases. Note potential race." (the two raw lines
were joined by single spaces during extraction, so the keyword filter sees
one line and no "; " join occurs). -/
theorem c2_scenario_merged_prompt :
    (planWithJanus "Add logging".data codexScenario claudeScenario).mergedPrompt
      = ("Task: Add logging\nApproach: Build it carefully\n" ++
          "Considerations: Consider edge cases. Note potential race.").data := by
  decide

/-- Counterexample for C2 as stated: the merged prompt of the example
scenario differs from the claimed string (whose Considerations text is
lower-cased and "; "-joined). -/
theorem c2_scenario_counterexample :
    (planWithJanus "Add logging".data codexScenario claudeScenario).mergedPrompt
      ≠ ("Task: Add logging\nApproach: Build it carefully\n" ++
          "Considerations: consider edge cases.; note potential race.").data := by
  decide

/-- Claim C3 (corrected): every `PlanResult` returned by `claudePlan` has
a non-empty `systemPrompt`, PROVIDED every transport that succeeds does so
with non-empty content (non-empty Anthropic content, non-empty HTTP
response body, non-empty OpenAI content); the no-transport stub is
non-empty unconditionally. -/
theorem c3_systemPrompt_nonempty (env : Env) (w : World)
    (h1 : anthOkNonempty w = true) (h2 : httpBodyNonempty w = true)
    (h3 : openaiOkNonempty w = true) :
    ∀ r, claudePlan env w = .ok r → r.systemPrompt ≠ [] := by
  intro r hr
  unfold claudePlan at hr
  split at hr
  · rename_i r0 heq
    cases hr
    exact anthropic_systemPrompt_ne env w h1 _ heq
  · unfold claudeStage2 at hr
    split at hr
    · rename_i r0 heq
      cases hr
      exact httpCaught_systemPrompt_ne env w h2 _ heq
    · unfold claudeStage3 at hr
      split at hr
      · rename_i r0 heq
        cases hr
        exact cli_systemPrompt_ne env w _ heq
      · exact fallback_systemPrompt_ne env w h3 _ hr

/-- Witness for C3: with nothing configured and benign call outcomes, the
returned stub has a non-empty systemPrompt. -/
theorem c3_systemPrompt_nonempty_witness : stubPlanResult.systemPrompt ≠ [] :=
  c3_systemPrompt_nonempty envNone wBenign rfl rfl rfl stubPlanResult rfl

/-- Counterexample for C3 as stated: with only the HTTP transport
configured and a completed response whose body is empty, `claudePlan`
returns a `PlanResult` whose `systemPrompt` is the empty string. -/
theorem c3_empty_systemPrompt_counterexample :
    claudePlan envHttpOnly wHttpEmptyBody
      = .ok ⟨.claude, [], [],
          "Claude-style critique via external HTTP service.".data⟩ ∧
    (PlanResult.systemPrompt
        ⟨.claude, [], [], "Claude-style critique via external HTTP service.".data⟩) = [] :=
  ⟨rfl, rfl⟩

/-- Claim C4 (confirmed): a throwing direct-API transport, an erroring
HTTP request and an erroring CLI subprocess are each caught at their stage
boundary and resolution proceeds to the next stage; any error surfaced by
`claudePlan` can only originate in the final OpenAI-fallback stage's own
call, never in the first three transports. -/
theorem c4_failure_fallthrough (env : Env) (w : World) :
    (∀ e, w.anthropicCall = .error e → claudePlan env w = claudeStage2 env w) ∧
    (∀ e, planWithHttpService env w = .error e → claudeStage2 env w = claudeStage3 env w) ∧
    (∀ e, w.cliOutcome = .error e → claudeStage3 env w = claudeStage4 env w) ∧
    (∀ e, claudePlan env w = .error e →
      planWithOpenAIFallback env w = .error e ∧ w.openaiCall = .error e) := by
  refine ⟨?_, ?_, ?_, ?_⟩
  · intro e he
    unfold claudePlan
    rw [planWithAnthropic_of_error env w e he]
  · intro e he
    unfold claudeStage2 httpCaught
    rw [he]
  · intro e he
    unfold claudeStage3
    rw [planWithCliCommand_of_error env w e he]
  · intro e he
    have h4 := claudePlan_error_from_fallback env w e he
    exact ⟨h4, openaiFallback_error_source env w e h4⟩

/-- Witness for C4: with every transport configured and every external
call failing, each stage falls through to the next and the only surfaced
error is the OpenAI stage's own. -/
theorem c4_failure_fallthrough_witness :
    claudePlan envAll wAllFail = claudeStage2 envAll wAllFail ∧
    claudeStage2 envAll wAllFail = claudeStage3 envAll wAllFail ∧
    claudeStage3 envAll wAllFail = claudeStage4 envAll wAllFail ∧
    (planWithOpenAIFallback envAll wAllFail = .error "e4".data ∧
      wAllFail.openaiCall = .error "e4".data) :=
  ⟨(c4_failure_fallthrough envAll wAllFail).1 "e1".data rfl,
   (c4_failure_fallthrough envAll wAllFail).2.1 "e2".data rfl,
   (c4_failure_fallthrough envAll wAllFail).2.2.1 "e3".data rfl,
   (c4_failure_fallthrough envAll wAllFail).2.2.2 "e4".data rfl⟩

/-- Claim C5 (corrected): `mergedNotes` is the newline-join of the block
sequence after every empty block has been filtered out — so no EMPTY
string survives into the join; the fixed headings, however, are separate
literal blocks which are never dropped, so a heading whose section content
was empty remains with no content under it (see the counterexample). -/
theorem c5_empty_blocks_dropped (task : List Char) (codex claude : PlanResult) :
    (planWithJanus task codex claude).mergedNotes
      = joinSep ['\n'] (notesBlocks codex claude) ∧
    [] ∉ notesBlocks codex claude :=
  ⟨rfl, notesBlocks_no_empty codex claude⟩

/-- Counterexample for C5 as stated: with planner results whose extracted
sections are all empty, `mergedNotes` keeps the literal headings with no
content following them (e.g. `## System Prompt` directly followed by
`## Plan`). -/
theorem c5_orphan_heading_counterexample :
    hasOrphanHeading
      (splitNl ((planWithJanus "t".data prEmptyCodex prEmptyClaude).mergedNotes)) = true := by
  decide

/-- Claim C6 (corrected): for an input that BEGINS with the line
`SYSTEM PROMPT:` followed by section text and a blank line — where the
section text is non-empty, starts and ends with non-whitespace, and
contains no internal terminator (no blank line and no newline-PLAN/
RATIONALE-label) — `extractSystemPrompt` returns exactly that section
text.  (The original unrestricted claim fails: an earlier line matching a
`SYSTEM`-style label hijacks the leftmost match, see the counterexample.) -/
theorem c6_label_extraction (body rest : List Char) (hne : body ≠ [])
    (hh : isWs body.headI = false) (hl : isWs (body.getLastD ' ') = false)
    (hno : ∀ k, k < body.length → 0 < k →
      termB sysTerm true (body.drop k ++ '\n' :: '\n' :: rest) = false) :
    extractSystemPrompt ("SYSTEM PROMPT:".data ++ '\n' :: (body ++ '\n' :: '\n' :: rest))
      = body :=
  extractSystemPrompt_label body rest hne hh hl hno

/-- Witness for C6: a concrete labelled input is extracted exactly. -/
theorem c6_label_extraction_witness :
    extractSystemPrompt
        ("SYSTEM PROMPT:".data ++ '\n' :: ("Be careful.".data ++ '\n' :: '\n' :: "PLAN:\nx".data))
      = "Be careful.".data :=
  c6_label_extraction "Be careful.".data "PLAN:\nx".data (by decide) (by decide)
    (by decide) (by decide)

/-- Counterexample for C6 as stated: the input contains the line
`SYSTEM PROMPT:` followed by the section text `B` and a blank line, yet
the function returns `A` (the leftmost label match wins), so it does not
return "exactly that section text" for every such occurrence. -/
theorem c6_leftmost_match_counterexample :
    extractSystemPrompt "SYSTEM PROMPT:\nA\n\nSYSTEM PROMPT:\nB\n\n".data = "A".data ∧
    ("A".data : List Char) ≠ "B".data := by
  constructor
  · decide
  · decide

/-- Claim C7 (corrected): with no recognizable label and a first non-blank
line longer than 200 characters, `extractSystemPrompt` returns the first
200 characters of that line WITH SURROUNDING WHITESPACE TRIMMED, followed
by `...` (the source applies `.trim()` to the 200-character prefix, so the
result is not always exactly the first 200 characters). -/
theorem c7_truncation (content first : List Char) (restL : List (List Char))
    (hfind : findSection sysLabels sysTerm true content = none)
    (hlines : (splitNl content).filter (fun l => !(trimList l).isEmpty) = first :: restL)
    (hlen : 200 < first.length) :
    extractSystemPrompt content = trimList (first.take 200) ++ "...".data :=
  extractSystemPrompt_truncation content first restL hfind hlines hlen

set_option maxRecDepth 8000 in
/-- Witness for C7: a 250-character line is truncated to its first 200
characters plus the ellipsis marker. -/
theorem c7_truncation_witness :
    extractSystemPrompt longLinePlain = trimList (longLinePlain.take 200) ++ "...".data :=
  c7_truncation longLinePlain longLinePlain [] (by decide) (by decide) (by decide)

set_option maxRecDepth 8000 in
/-- Counterexample for C7 as stated: a 220-character line whose 200th
character is a space is truncated to 199 characters plus the marker — not
to exactly its first 200 characters plus the marker. -/
theorem c7_truncation_counterexample :
    extractSystemPrompt longLineSpaceAt200 = List.replicate 199 'a' ++ "...".data ∧
    List.replicate 199 'a' ++ "...".data ≠ longLineSpaceAt200.take 200 ++ "...".data ∧
    findSection sysLabels sysTerm true longLineSpaceAt200 = none ∧
    200 < longLineSpaceAt200.length := by
  refine ⟨by decide, by decide, by decide, by decide⟩

/-- Claim C8 (confirmed): when both planner outputs have empty extracted
system-prompt sections, the merged prompt is exactly the task, a blank
line, and the literal default phrase. -/
theorem c8_default_prompt (task : List Char) (codex claude : PlanResult)
    (h1 : extractSystemPrompt codex.systemPrompt = [])
    (h2 : extractSystemPrompt claude.systemPrompt = []) :
    (planWithJanus task codex claude).mergedPrompt
      = task ++ "\n\n".data ++ "Execute the task with precision and clarity.".data :=
  mergedPrompt_default task codex claude h1 h2

/-- Witness for C8: concrete empty planner outputs produce the default
merged prompt. -/
theorem c8_default_prompt_witness :
    (planWithJanus "T".data prEmptyCodex prEmptyClaude).mergedPrompt
      = "T".data ++ "\n\n".data ++ "Execute the task with precision and clarity.".data :=
  c8_default_prompt "T".data prEmptyCodex prEmptyClaude rfl rfl

/-- Claim C9 (corrected): `mergedNotes` always contains the fixed headings
`# Codex Proposal` and `# Claude Proposal` and the separator `---` as
lines, and — PROVIDED no surviving block's own text contains a blank line
— contains no blank line (every empty string in the raw block sequence is
filtered out before the single-newline join).  (Unconditionally the claim
fails: a raw plan or rationale containing consecutive newlines introduces
blank lines, see the counterexample.) -/
theorem c9_notes_structure (task : List Char) (codex claude : PlanResult)
    (h : ∀ b ∈ notesBlocks codex claude, [] ∉ splitNl b) :
    "# Codex Proposal".data ∈ splitNl ((planWithJanus task codex claude).mergedNotes) ∧
    "# Claude Proposal".data ∈ splitNl ((planWithJanus task codex claude).mergedNotes) ∧
    "---".data ∈ splitNl ((planWithJanus task codex claude).mergedNotes) ∧
    [] ∉ splitNl ((planWithJanus task codex claude).mergedNotes) :=
  mergedNotes_lines task codex claude h

/-- Witness for C9: with clean single-line planner fields, the notes
contain the fixed headings and separator and no blank line. -/
theorem c9_notes_structure_witness :
    "# Codex Proposal".data
        ∈ splitNl ((planWithJanus "t".data prCleanCodex prCleanClaude).mergedNotes) ∧
    "# Claude Proposal".data
        ∈ splitNl ((planWithJanus "t".data prCleanCodex prCleanClaude).mergedNotes) ∧
    "---".data ∈ splitNl ((planWithJanus "t".data prCleanCodex prCleanClaude).mergedNotes) ∧
    [] ∉ splitNl ((planWithJanus "t".data prCleanCodex prCleanClaude).mergedNotes) :=
  c9_notes_structure "t".data prCleanCodex prCleanClaude (by decide)

/-- Counterexample for C9 as stated: a raw plan field containing
consecutive newlines puts a blank line into `mergedNotes`. -/
theorem c9_blank_line_counterexample :
    [] ∈ splitNl ((planWithJanus "t".data prBlankPlan prCleanClaude).mergedNotes) := by
  decide

/-- Claim C10 (confirmed): when the HTTP transport is configured and a
response completes, `planWithHttpService` resolves to a result (never
null); when the body parses as JSON with neither a `systemPrompt` nor a
`content` field, the raw body becomes the systemPrompt (and the plan when
no `plan` field is present), exactly as when the body is not JSON. -/
theorem c10_http_response_handling (env : Env) (w : World) (body : List Char)
    (parsed : Option JsonFields) (hurl : isSet env.claudeFlowUrl = true)
    (hresp : w.httpOutcome = .completed body parsed) :
    planWithHttpService env w = .ok (some (mkHttpPlanResult body parsed)) ∧
    (∀ j, parsed = some j → j.systemPrompt = none → j.content = none →
      (mkHttpPlanResult body parsed).systemPrompt = body ∧
      (j.plan = none → (mkHttpPlanResult body parsed).plan = body)) ∧
    (parsed = none → (mkHttpPlanResult body parsed).systemPrompt = body ∧
      (mkHttpPlanResult body parsed).plan = body) :=
  planWithHttpService_completed env w body parsed hurl hresp

/-- Witness for C10: a parsed JSON body with no recognized fields yields
the raw body as both systemPrompt and plan. -/
theorem c10_http_response_handling_witness :
    (mkHttpPlanResult "raw".data (some ⟨none, none, none, none⟩)).systemPrompt = "raw".data ∧
    (mkHttpPlanResult "raw".data (some ⟨none, none, none, none⟩)).plan = "raw".data :=
  ⟨((c10_http_response_handling envHttpOnly wHttpBareJson "raw".data
      (some ⟨none, none, none, none⟩) rfl rfl).2.1 _ rfl rfl rfl).1,
   ((c10_http_response_handling envHttpOnly wHttpBareJson "raw".data
      (some ⟨none, none, none, none⟩) rfl rfl).2.1 _ rfl rfl rfl).2 rfl⟩

end Janus
